import Mathlib

/-!
# Faculty Publication System — publication-summary pipeline, verified model

Shallow embedding of the publication-summary pipeline of the
Faculty-Publication-System repository (`server/routes.ts`: the summary
utility `generatePublicationSummary` with its helpers `groupPublications`,
`generatePDFSummary`, `generateWordSummary`, `generateWebSummary`,
`formatSummaryText`, `generateHTML`, and the HTTP route
`GET /api/publications/summary`), together with theorems checking the
specification's statements about it.

Modelling conventions:
* A TypeScript `Publication` row (`shared/schema.ts`) becomes a structure;
  nullable text columns become `Option String`.  The two timestamp columns
  are omitted: they are never read by the pipeline.
* JavaScript truthiness on nullable text (`pub.doi`, `pub.researchArea`)
  is `jsTruthy`: `null` and `""` are falsy, every other string truthy.
  (The client form indeed submits `""` for unfilled optional fields.)
* `pub.year.toString()` and `parseInt` are JS builtins, modelled by
  `jsIntToString` / `jsParseInt` over decimal digit lists; `parseInt`'s
  radix/whitespace handling is omitted as unreachable on the decimal key
  strings produced here, and its NaN result is `none`.
* `str.localeCompare` is locale-dependent (implementation-defined by
  ECMA-402); it is modelled as the code-point lexicographic order on
  strings, with which it agrees on the digit strings and plain ASCII keys
  arising here.
* A JS insertion-ordered `Map` becomes an association list
  `List (String × List Publication)`; `Array.prototype.sort` (stable)
  becomes `List.mergeSort`.
* A thrown exception becomes `Except.error`; `Buffer.from(s)` is the UTF-8
  bytes of `s`, so byte equality of buffers is string equality.
-/

namespace FacultyPub

/-- A publication row, after `shared/schema.ts` (`publications` table):
nullable columns (`doi`, `pdfUrl`, `citations`, `researchArea`) are
`Option`s, the `createdAt`/`updatedAt` timestamps are omitted (unused by
the summary pipeline). -/
structure Publication where
  id : Int
  title : String
  type : String
  authors : String
  venue : String
  year : Int
  doi : Option String
  abstract : String
  keywords : String
  pdfUrl : Option String
  userId : Int
  citations : Option Int
  researchArea : Option String
deriving DecidableEq, Repr

/-- JS truthiness of a nullable text column: `null` and `""` are falsy. -/
def jsTruthy : Option String → Bool
  | none => false
  | some s => !s.isEmpty

/-- JS `v || dflt` on a nullable text column. -/
def jsOrElse (v : Option String) (dflt : String) : String :=
  match v with
  | none => dflt
  | some s => if s.isEmpty then dflt else s

/-- Little-endian decimal digits of a natural number (at least one digit). -/
def natDigitsRev (n : Nat) : List Char :=
  if _h : n < 10 then [Char.ofNat (48 + n)]
  else Char.ofNat (48 + n % 10) :: natDigitsRev (n / 10)
termination_by n
decreasing_by
  exact Nat.div_lt_self (by omega) (by omega)

/-- Decimal string of a natural number. -/
def natToString (n : Nat) : String :=
  ⟨(natDigitsRev n).reverse⟩

/-- Model of the JS builtin `Number.prototype.toString` on the integers
stored in the `year` column. -/
def jsIntToString (i : Int) : String :=
  if i < 0 then "-" ++ natToString i.natAbs else natToString i.toNat

/-- Value of a big-endian decimal digit list. -/
def digitsVal (ds : List Char) : Nat :=
  ds.foldl (fun n c => n * 10 + (c.toNat - 48)) 0

/-- Model of the JS builtin `parseInt` on the decimal strings arising as
group keys: an optional minus sign followed by the longest digit prefix;
`none` models the NaN result.  (The builtin's whitespace skipping, `+`
sign and radix prefixes are unreachable on those inputs.) -/
def jsParseInt (s : String) : Option Int :=
  match s.data with
  | [] => none
  | c :: cs =>
    if c = '-' then
      let ds := cs.takeWhile Char.isDigit
      if ds.isEmpty then none else some (-(Int.ofNat (digitsVal ds)))
    else
      let ds := (c :: cs).takeWhile Char.isDigit
      if ds.isEmpty then none else some (Int.ofNat (digitsVal ds))

/-- `jsParseInt` with NaN defaulted (never reached on the numeric keys of
the `year` branch, but keeps the sort comparator total). -/
def jsParseIntD (s : String) : Int :=
  (jsParseInt s).getD 0

/-- The per-publication group key of `groupPublications`
(`server/routes.ts` lines 792–807): the `switch (filter)` on
`"year"` / `"type"` / `"area"` with default key `"All Publications"`;
the `area` branch is `pub.researchArea || "Uncategorized"`. -/
def groupKey (filter : String) (pub : Publication) : String :=
  if filter = "year" then jsIntToString pub.year
  else if filter = "type" then pub.type
  else if filter = "area" then jsOrElse pub.researchArea "Uncategorized"
  else "All Publications"

/-- One step of bucket insertion: the JS `Map` lookup-or-create followed by
`groups.get(key)!.push(pub)` — append to the existing bucket of `key`,
else add a new bucket at the end (insertion order of the `Map`). -/
def insertGrouped (m : List (String × List Publication)) (key : String)
    (pub : Publication) : List (String × List Publication) :=
  match m with
  | [] => [(key, [pub])]
  | (k, ps) :: rest =>
    if k = key then (k, ps ++ [pub]) :: rest
    else (k, ps) :: insertGrouped rest key pub

/-- The `publications.forEach` bucket-building loop of
`groupPublications`. -/
def buildGroups (filter : String) (pubs : List Publication) :
    List (String × List Publication) :=
  pubs.foldl (fun m pub => insertGrouped m (groupKey filter pub) pub) []

/-- The sort comparator of `groupPublications` (lines 816–821), as the
"sorts not after" Boolean relation: entry `a` may precede `b` iff the JS
comparator value is `≤ 0`.  Year branch: `parseInt(b[0]) - parseInt(a[0])`;
otherwise `a[0].localeCompare(b[0])` (modelled as code-point order). -/
def groupLE (filter : String) (a b : String × List Publication) : Bool :=
  if filter = "year" then decide (jsParseIntD b.1 - jsParseIntD a.1 ≤ 0)
  else decide (a.1 ≤ b.1)

/-- `groupPublications` (`server/routes.ts` lines 790–824): bucket by
`groupKey`, then sort the buckets with the comparator; the sorted `Map`'s
iteration order is the sorted list order. -/
def groupPublications (publications : List Publication) (filter : String) :
    List (String × List Publication) :=
  (buildGroups filter publications).mergeSort (groupLE filter)

/-- Concatenation of a list of strings (the string-accumulating `+=`
loops, read off as a join). -/
def strJoin : List String → String
  | [] => ""
  | s :: rest => s ++ strJoin rest

/-- `"-".repeat(n)`. -/
def dashes (n : Nat) : String :=
  ⟨List.replicate n '-'⟩

/-- The per-publication block of `formatSummaryText` (lines 866–871):
title line, `Authors:` line, `venue, year` line, the `DOI:` line only when
`pub.doi` is truthy, then the separating blank line. -/
def formatPubText (pub : Publication) : String :=
  pub.title ++ "\n" ++ "Authors: " ++ pub.authors ++ "\n" ++ pub.venue
    ++ ", " ++ jsIntToString pub.year ++ "\n"
    ++ (if jsTruthy pub.doi then "DOI: " ++ pub.doi.getD "" ++ "\n" else "")
    ++ "\n"

/-- The per-group block of `formatSummaryText` (line 864): header line,
underline of dashes of the key's length, blank line, then the publication
blocks.  (JS `group.length` counts UTF-16 units; `String.length` counts
code points — they agree on all keys without supplementary-plane
characters.) -/
def formatGroupText (g : String × List Publication) : String :=
  g.1 ++ "\n" ++ dashes g.1.length ++ "\n" ++ "\n"
    ++ strJoin (g.2.map formatPubText)

/-- `formatSummaryText` (lines 860–876). -/
def formatSummaryText (grouped : List (String × List Publication)) : String :=
  "Publications Summary" ++ "\n" ++ "\n" ++ strJoin (grouped.map formatGroupText)

/-- The fixed head of `generateHTML`'s document (lines 879–898), with the
template literal's exact whitespace; `\x7b`/`\x7d` are the CSS braces. -/
def htmlHeader : String :=
  "\n    <!DOCTYPE html>\n    <html>\n    <head>\n      <title>Publications Summary</title>\n      <style>\n        body \x7b font-family: system-ui; max-width: 800px; margin: 2rem auto; padding: 0 1rem; \x7d\n        h1 \x7b color: #1a365d; \x7d\n        h2 \x7b color: #2c5282; border-bottom: 2px solid #e2e8f0; padding-bottom: 0.5rem; \x7d\n        .publication \x7b margin-bottom: 1.5rem; \x7d\n        .title \x7b font-weight: bold; margin-bottom: 0.5rem; \x7d\n        .metadata \x7b color: #4a5568; \x7d\n        .doi \x7b color: #2b6cb0; text-decoration: none; \x7d\n        .doi:hover \x7b text-decoration: underline; \x7d\n      </style>\n    </head>\n    <body>\n      <h1>Publications Summary</h1>\n  "

/-- The DOI anchor of `generateHTML` (line 908):
`<br><a href="https://doi.org/${pub.doi}" class="doi">DOI: ${pub.doi}</a>`. -/
def doiAnchorHTML (d : String) : String :=
  "<br>" ++ "<a href=\"https://doi.org/" ++ d ++ "\""
    ++ " class=\"doi\">DOI: " ++ d ++ "</a>"

/-- The per-publication block of `generateHTML` (lines 903–911), with the
template literal's exact whitespace. -/
def entryHTML (pub : Publication) : String :=
  "\n        <div class=\"publication\">\n          <div class=\"title\">"
    ++ pub.title
    ++ "</div>\n          <div class=\"metadata\">\n            "
    ++ pub.authors
    ++ "<br>\n            "
    ++ pub.venue ++ ", " ++ jsIntToString pub.year
    ++ "\n            "
    ++ (if jsTruthy pub.doi then doiAnchorHTML (pub.doi.getD "") else "")
    ++ "\n          </div>\n        </div>\n      "

/-- The per-group block of `generateHTML` (lines 900–912). -/
def groupHTML (g : String × List Publication) : String :=
  "<h2>" ++ g.1 ++ "</h2>" ++ strJoin (g.2.map entryHTML)

/-- The fixed tail of `generateHTML`'s document (lines 915–918). -/
def htmlFooter : String :=
  "\n    </body>\n    </html>\n  "

/-- `generateHTML` (lines 878–922). -/
def generateHTML (grouped : List (String × List Publication)) : String :=
  htmlHeader ++ strJoin (grouped.map groupHTML) ++ htmlFooter

/-- Model of the JS builtin `String.prototype.toLowerCase` on one
character: the ASCII action (the recognized format names are ASCII; the
builtin\'s full Unicode simple case mapping is not exercised here). -/
def jsCharToLower (c : Char) : Char :=
  if 65 ≤ c.toNat ∧ c.toNat ≤ 90 then Char.ofNat (c.toNat + 32) else c

/-- Model of the JS builtin `String.prototype.toLowerCase`. -/
def jsToLowerCase (s : String) : String :=
  ⟨s.data.map jsCharToLower⟩

/-- The `Summary` interface of the summary utility: `content` is the
string whose UTF-8 bytes `Buffer.from` wraps. -/
structure Summary where
  content : String
  contentType : String
  extension : String
deriving DecidableEq, Repr

/-- `generatePDFSummary` (lines 826–836): the plain-text formatter's
output labelled as PDF. -/
def generatePDFSummary (grouped : List (String × List Publication)) : Summary :=
  { content := formatSummaryText grouped
    contentType := "application/pdf"
    extension := "pdf" }

/-- `generateWordSummary` (lines 838–848): the plain-text formatter's
output labelled as a Word document. -/
def generateWordSummary (grouped : List (String × List Publication)) : Summary :=
  { content := formatSummaryText grouped
    contentType := "application/vnd.openxmlformats-officedocument.wordprocessingml.document"
    extension := "docx" }

/-- `generateWebSummary` (lines 850–858). -/
def generateWebSummary (grouped : List (String × List Publication)) : Summary :=
  { content := generateHTML grouped
    contentType := "text/html"
    extension := "html" }

/-- `generatePublicationSummary` (lines 769–788): group, then dispatch on
`format.toLowerCase()`; the `default` branch throws
`Unsupported format: ${format}` (modelled as `Except.error`). -/
def generatePublicationSummary (publications : List Publication)
    (format : String) (filter : String) : Except String Summary :=
  let grouped := groupPublications publications filter
  if jsToLowerCase format = "pdf" then Except.ok (generatePDFSummary grouped)
  else if jsToLowerCase format = "word" then Except.ok (generateWordSummary grouped)
  else if jsToLowerCase format = "web" then Except.ok (generateWebSummary grouped)
  else Except.error ("Unsupported format: " ++ format)

/-- An HTTP response as far as the summary route constructs one. -/
structure HttpResponse where
  status : Nat
  contentType : Option String
  contentDisposition : Option String
  body : String
deriving DecidableEq, Repr

/-- The route `GET /api/publications/summary` (`server/routes.ts` lines
268–284): `401` when unauthenticated, otherwise it awaits
`generatePublicationSummary` with **no** `try`/`catch` — a thrown
`Unsupported format` error escapes the handler (`Except.error`: the route
sends no response at all in that case) — and on success sends the content
with status 200 and the two headers. -/
def summaryEndpoint (isAuthenticated : Bool) (publications : List Publication)
    (format : String) (filter : String) : Except String HttpResponse :=
  if !isAuthenticated then
    Except.ok { status := 401, contentType := none, contentDisposition := none, body := "" }
  else
    match generatePublicationSummary publications format filter with
    | Except.error e => Except.error e
    | Except.ok s =>
      Except.ok
        { status := 200
          contentType := some s.contentType
          contentDisposition :=
            some ("attachment; filename=\"publications_summary." ++ s.extension ++ "\"")
          body := s.content }

/-! ### Decimal printing and parsing: `jsParseInt` inverts `jsIntToString` -/

theorem charDigit_toNat {r : Nat} (h : r < 10) : (Char.ofNat (48 + r)).toNat = 48 + r := by
  interval_cases r <;> decide

theorem charDigit_isDigit {r : Nat} (h : r < 10) : (Char.ofNat (48 + r)).isDigit = true := by
  interval_cases r <;> decide

theorem natDigitsRev_ne_nil (n : Nat) : natDigitsRev n ≠ [] := by
  rw [natDigitsRev]
  split <;> simp

theorem natDigitsRev_all_digits (n : Nat) : ∀ c ∈ natDigitsRev n, c.isDigit = true := by
  induction n using natDigitsRev.induct with
  | case1 n h =>
    rw [natDigitsRev]
    simp only [h, reduceDIte, List.mem_singleton]
    rintro c rfl
    exact charDigit_isDigit h
  | case2 n h ih =>
    rw [natDigitsRev]
    simp only [h, reduceDIte, List.mem_cons]
    rintro c (rfl | hc)
    · exact charDigit_isDigit (Nat.mod_lt _ (by omega))
    · exact ih c hc

theorem digitsVal_append (ds : List Char) (c : Char) :
    digitsVal (ds ++ [c]) = 10 * digitsVal ds + (c.toNat - 48) := by
  simp [digitsVal, List.foldl_append]
  omega

theorem digitsVal_reverse_natDigitsRev (n : Nat) :
    digitsVal (natDigitsRev n).reverse = n := by
  induction n using natDigitsRev.induct with
  | case1 n h =>
    rw [natDigitsRev]
    simp only [h, reduceDIte, List.reverse_singleton]
    simp [digitsVal, charDigit_toNat h]
  | case2 n h ih =>
    rw [natDigitsRev]
    simp only [h, reduceDIte, List.reverse_cons]
    rw [digitsVal_append, ih, charDigit_toNat (Nat.mod_lt _ (by omega))]
    omega

theorem takeWhile_of_all {p : Char → Bool} :
    ∀ {l : List Char}, (∀ c ∈ l, p c = true) → l.takeWhile p = l
  | [], _ => rfl
  | c :: cs, h => by
    rw [List.takeWhile_cons, if_pos (h c (by simp))]
    rw [takeWhile_of_all (fun c hc => h c (by simp [hc]))]

/-- The digit-list facts needed to run `jsParseInt` over a printed
natural number. -/
theorem parse_digits_reverse (n : Nat) :
    (natDigitsRev n).reverse.takeWhile Char.isDigit = (natDigitsRev n).reverse
      ∧ (natDigitsRev n).reverse.isEmpty = false
      ∧ digitsVal (natDigitsRev n).reverse = n := by
  refine ⟨takeWhile_of_all (fun c hc => natDigitsRev_all_digits n c (by simpa using hc)), ?_, digitsVal_reverse_natDigitsRev n⟩
  have := natDigitsRev_ne_nil n
  simp_all [List.isEmpty_iff]

theorem jsParseInt_natToString (n : Nat) : jsParseInt (natToString n) = some (Int.ofNat n) := by
  obtain ⟨htw, hne, hval⟩ := parse_digits_reverse n
  obtain ⟨c, cs, hcs⟩ : ∃ c cs, (natDigitsRev n).reverse = c :: cs := by
    cases hrev : (natDigitsRev n).reverse with
    | nil => rw [hrev] at hne; simp at hne
    | cons c cs => exact ⟨c, cs, rfl⟩
  have hcdig : c.isDigit = true :=
    natDigitsRev_all_digits n c (by rw [← List.mem_reverse, hcs]; simp)
  have hcne : ¬(c = '-') := by
    rintro rfl
    simp [Char.isDigit] at hcdig
  have hdata : (natToString n).data = c :: cs := by
    simpa [natToString] using hcs
  unfold jsParseInt
  rw [hdata]
  simp only [if_neg hcne]
  rw [← hcs, htw, hne, hval]
  simp

theorem jsParseInt_jsIntToString (i : Int) : jsParseInt (jsIntToString i) = some i := by
  unfold jsIntToString
  split
  · rename_i hneg
    obtain ⟨htw, hne, hval⟩ := parse_digits_reverse i.natAbs
    have hdata : ("-" ++ natToString i.natAbs).data = '-' :: (natDigitsRev i.natAbs).reverse := by
      simp [natToString]
    unfold jsParseInt
    rw [hdata]
    simp only [if_pos rfl]
    rw [htw, hne, hval]
    simp only [Bool.false_eq_true, reduceIte, Option.some.injEq, Int.ofNat_eq_coe]
    omega
  · rw [jsParseInt_natToString]
    rename_i hpos
    simp only [Option.some.injEq, Int.ofNat_eq_coe]
    omega

theorem jsParseIntD_jsIntToString (i : Int) : jsParseIntD (jsIntToString i) = i := by
  simp [jsParseIntD, jsParseInt_jsIntToString]

theorem jsIntToString_injective {a b : Int} (h : jsIntToString a = jsIntToString b) : a = b := by
  have ha := jsParseIntD_jsIntToString a
  rw [h, jsParseIntD_jsIntToString] at ha
  omega

/-! ### The bucket-building loop builds an order-preserving partition -/

theorem keys_insertGrouped (m : List (String × List Publication)) (k : String)
    (p : Publication) :
    (insertGrouped m k p).map Prod.fst =
      if k ∈ m.map Prod.fst then m.map Prod.fst else m.map Prod.fst ++ [k] := by
  induction m with
  | nil => simp [insertGrouped]
  | cons g rest ih =>
    obtain ⟨k', ps⟩ := g
    by_cases hk : k' = k
    · subst hk
      simp [insertGrouped]
    · have hk' : ¬k = k' := fun e => hk e.symm
      by_cases hm : k ∈ rest.map Prod.fst <;>
        simp [insertGrouped, hk, ih, hm, hk']

theorem insertGrouped_of_not_mem {m : List (String × List Publication)} {k : String}
    {p : Publication} (h : k ∉ m.map Prod.fst) :
    insertGrouped m k p = m ++ [(k, [p])] := by
  induction m with
  | nil => rfl
  | cons g rest ih =>
    obtain ⟨k', ps⟩ := g
    simp only [List.map_cons, List.mem_cons, not_or] at h
    have hk' : ¬k' = k := fun e => h.1 e.symm
    simp [insertGrouped, hk', ih h.2]

theorem map_update_id {m : List (String × List Publication)} {k : String}
    {p : Publication} (h : k ∉ m.map Prod.fst) :
    m.map (fun g => if g.1 = k then (g.1, g.2 ++ [p]) else g) = m := by
  induction m with
  | nil => rfl
  | cons g rest ih =>
    simp only [List.map_cons, List.mem_cons, not_or] at h
    have hk' : g.1 ≠ k := fun e => h.1 e.symm
    simp [hk', ih h.2]

theorem insertGrouped_of_mem {m : List (String × List Publication)} {k : String}
    {p : Publication} (hnd : (m.map Prod.fst).Nodup) (h : k ∈ m.map Prod.fst) :
    insertGrouped m k p = m.map (fun g => if g.1 = k then (g.1, g.2 ++ [p]) else g) := by
  induction m with
  | nil => simp at h
  | cons g rest ih =>
    obtain ⟨k', ps⟩ := g
    simp only [List.map_cons, List.nodup_cons] at hnd
    simp only [List.map_cons, List.mem_cons] at h
    by_cases hk : k' = k
    · subst hk
      simp [insertGrouped, map_update_id hnd.1]
    · simp [insertGrouped, hk, ih hnd.2 (h.resolve_left fun e => hk e.symm)]

/-- Loop invariant of `publications.forEach` in `groupPublications`:
bucket keys are distinct, each bucket holds exactly the already-processed
publications of its key in encounter order, and every processed
publication\'s key has a bucket. -/
def GroupsInv (filter : String) (pubs : List Publication)
    (m : List (String × List Publication)) : Prop :=
  (m.map Prod.fst).Nodup
    ∧ (∀ g ∈ m, g.2 = pubs.filter fun q => groupKey filter q = g.1)
    ∧ (∀ q ∈ pubs, groupKey filter q ∈ m.map Prod.fst)

theorem groupsInv_insert {filter : String} {pubs : List Publication}
    {m : List (String × List Publication)} {p : Publication}
    (h : GroupsInv filter pubs m) :
    GroupsInv filter (pubs ++ [p]) (insertGrouped m (groupKey filter p) p) := by
  obtain ⟨hnd, hspec, hcov⟩ := h
  by_cases hm : groupKey filter p ∈ m.map Prod.fst
  · rw [insertGrouped_of_mem hnd hm]
    have hkeys : (m.map fun g =>
        if g.1 = groupKey filter p then (g.1, g.2 ++ [p]) else g).map Prod.fst
          = m.map Prod.fst := by
      rw [List.map_map]
      apply List.map_congr_left
      intro g _
      by_cases h1 : g.1 = groupKey filter p <;> simp [h1]
    refine ⟨by rw [hkeys]; exact hnd, ?_, ?_⟩
    · intro g hg
      rw [List.mem_map] at hg
      obtain ⟨g0, hg0, rfl⟩ := hg
      by_cases h1 : g0.1 = groupKey filter p
      · simp only [h1, if_pos rfl]
        rw [List.filter_append, hspec g0 hg0, h1]
        simp
      · simp only [if_neg h1]
        have h1' : ¬groupKey filter p = g0.1 := fun e => h1 e.symm
        rw [List.filter_append, ← hspec g0 hg0]
        simp [h1']
    · intro q hq
      rw [hkeys]
      rcases List.mem_append.1 hq with hq | hq
      · exact hcov q hq
      · rw [List.mem_singleton.1 hq]
        exact hm
  · rw [insertGrouped_of_not_mem hm]
    have hempty : pubs.filter (fun q => groupKey filter q = groupKey filter p) = [] := by
      rw [List.filter_eq_nil_iff]
      intro q hq hk
      have he : groupKey filter q = groupKey filter p := of_decide_eq_true hk
      rw [← he] at hm
      exact hm (hcov q hq)
    refine ⟨?_, ?_, ?_⟩
    · rw [List.map_append, List.nodup_append]
      refine ⟨hnd, by simp, ?_⟩
      intro a ha hb
      simp only [List.map_cons, List.map_nil, List.mem_singleton] at hb
      rw [hb] at ha
      exact hm ha
    · intro g hg
      rcases List.mem_append.1 hg with hg | hg
      · have h1 : ¬groupKey filter p = g.1 := by
          intro e
          apply hm
          rw [e]
          exact List.mem_map_of_mem Prod.fst hg
        rw [List.filter_append, ← hspec g hg]
        simp [h1]
      · rcases List.mem_singleton.1 hg with rfl
        rw [List.filter_append, hempty]
        simp
    · intro q hq
      rw [List.map_append]
      rcases List.mem_append.1 hq with hq | hq
      · exact List.mem_append_left _ (hcov q hq)
      · rw [List.mem_singleton.1 hq]
        simp

theorem flatten_insertGrouped (m : List (String × List Publication)) (k : String)
    (p : Publication) :
    List.Perm ((insertGrouped m k p).map Prod.snd).flatten
      (((m.map Prod.snd).flatten) ++ [p]) := by
  induction m with
  | nil => simp [insertGrouped]
  | cons g rest ih =>
    obtain ⟨k', ps⟩ := g
    by_cases hk : k' = k
    · subst hk
      simp only [insertGrouped, if_true, eq_self_iff_true, List.map_cons,
        List.flatten_cons, List.append_assoc]
      exact List.Perm.append_left ps List.perm_append_comm
    · simp only [insertGrouped, if_neg hk, List.map_cons, List.flatten_cons,
        List.append_assoc]
      exact List.Perm.append_left ps ih

theorem buildGroups_append (filter : String) (pubs : List Publication)
    (p : Publication) :
    buildGroups filter (pubs ++ [p])
      = insertGrouped (buildGroups filter pubs) (groupKey filter p) p := by
  simp [buildGroups, List.foldl_append]

theorem groupsInv_buildGroups (filter : String) (pubs : List Publication) :
    GroupsInv filter pubs (buildGroups filter pubs) := by
  induction pubs using List.reverseRecOn with
  | nil => exact ⟨by simp [buildGroups], by simp [buildGroups], by simp⟩
  | append_singleton pubs p ih =>
    rw [buildGroups_append]
    exact groupsInv_insert ih

theorem flatten_buildGroups (filter : String) (pubs : List Publication) :
    List.Perm ((buildGroups filter pubs).map Prod.snd).flatten pubs := by
  induction pubs using List.reverseRecOn with
  | nil => simp [buildGroups]
  | append_singleton pubs p ih =>
    rw [buildGroups_append]
    exact (flatten_insertGrouped _ _ _).trans (ih.append_right [p])

/-! ### Transfer along the sort -/

theorem groupPublications_perm (pubs : List Publication) (filter : String) :
    List.Perm (groupPublications pubs filter) (buildGroups filter pubs) :=
  List.mergeSort_perm _ _

theorem groupPublications_keys_nodup (pubs : List Publication) (filter : String) :
    ((groupPublications pubs filter).map Prod.fst).Nodup :=
  ((groupPublications_perm pubs filter).symm.map Prod.fst).nodup
    (groupsInv_buildGroups filter pubs).1

theorem groupPublications_bucket {pubs : List Publication} {filter : String}
    {g : String × List Publication} (hg : g ∈ groupPublications pubs filter) :
    g.2 = pubs.filter fun q => groupKey filter q = g.1 :=
  (groupsInv_buildGroups filter pubs).2.1 g
    ((groupPublications_perm pubs filter).mem_iff.1 hg)

theorem groupPublications_flatten_perm (pubs : List Publication) (filter : String) :
    List.Perm ((groupPublications pubs filter).map Prod.snd).flatten pubs :=
  (((groupPublications_perm pubs filter).map Prod.snd).flatten).trans
    (flatten_buildGroups filter pubs)

theorem key_of_mem_group {pubs : List Publication} {filter : String}
    {g : String × List Publication} {p : Publication}
    (hg : g ∈ groupPublications pubs filter) (hp : p ∈ g.2) :
    groupKey filter p = g.1 := by
  rw [groupPublications_bucket hg] at hp
  simpa using (List.mem_filter.1 hp).2

/-! ### The comparator is a total preorder and the output is sorted -/

theorem groupLE_trans {filter : String} (a b c : String × List Publication)
    (hab : groupLE filter a b = true) (hbc : groupLE filter b c = true) :
    groupLE filter a c = true := by
  by_cases hf : filter = "year"
  · simp only [groupLE, if_pos hf, decide_eq_true_eq] at hab hbc ⊢
    omega
  · simp only [groupLE, if_neg hf, decide_eq_true_eq] at hab hbc ⊢
    exact le_trans hab hbc

theorem groupLE_total {filter : String} (a b : String × List Publication) :
    (groupLE filter a b || groupLE filter b a) = true := by
  by_cases hf : filter = "year"
  · simp only [groupLE, if_pos hf, Bool.or_eq_true, decide_eq_true_eq]
    omega
  · simp only [groupLE, if_neg hf, Bool.or_eq_true, decide_eq_true_eq]
    exact le_total a.1 b.1

theorem sorted_groupPublications (pubs : List Publication) (filter : String) :
    (groupPublications pubs filter).Pairwise
      (fun a b => groupLE filter a b = true) :=
  List.sorted_mergeSort (fun a b c => groupLE_trans a b c)
    (fun a b => groupLE_total a b) _

theorem groupPublications_keys_pairwise_ne (pubs : List Publication)
    (filter : String) :
    (groupPublications pubs filter).Pairwise (fun g h => g.1 ≠ h.1) :=
  List.pairwise_map.1 (groupPublications_keys_nodup pubs filter)

theorem groupKey_year (p : Publication) :
    groupKey "year" p = jsIntToString p.year := by
  simp [groupKey]

theorem year_groups_strict_desc (pubs : List Publication) :
    (groupPublications pubs "year").Pairwise
      (fun g h => jsParseIntD h.1 ≤ jsParseIntD g.1
        ∧ ∀ p ∈ g.2, ∀ q ∈ h.2, q.year < p.year) := by
  have h1 := sorted_groupPublications pubs "year"
  have h2 := groupPublications_keys_pairwise_ne pubs "year"
  refine (h1.and h2).imp_of_mem ?_
  intro g h hg hh hr
  obtain ⟨hle, hne⟩ := hr
  simp only [groupLE, reduceIte, decide_eq_true_eq] at hle
  have hled : jsParseIntD h.1 ≤ jsParseIntD g.1 := by omega
  refine ⟨hled, ?_⟩
  intro p hp q hq
  have hkp := key_of_mem_group hg hp
  have hkq := key_of_mem_group hh hq
  rw [groupKey_year] at hkp hkq
  have e1 : jsParseIntD g.1 = p.year := by
    rw [← hkp, jsParseIntD_jsIntToString]
  have e2 : jsParseIntD h.1 = q.year := by
    rw [← hkq, jsParseIntD_jsIntToString]
  have e3 : p.year ≠ q.year := by
    intro e
    rw [← hkp, ← hkq, e] at hne
    exact hne rfl
  omega

theorem other_groups_asc (pubs : List Publication) (filter : String)
    (hf : filter ≠ "year") :
    ((groupPublications pubs filter).map Prod.fst).Pairwise (· < ·) := by
  have h1 := sorted_groupPublications pubs filter
  have h2 := groupPublications_keys_pairwise_ne pubs filter
  rw [List.pairwise_map]
  refine (h1.and h2).imp ?_
  intro g h hr
  obtain ⟨hle, hne⟩ := hr
  simp only [groupLE, if_neg hf, decide_eq_true_eq] at hle
  exact lt_of_le_of_ne hle hne

/-! ### Sample rows used by the witnesses -/

/-- A publication with research area and DOI set. -/
def pubCS : Publication :=
  { id := 1, title := "Deep Parsing", type := "journal",
    authors := "A. Lovelace", venue := "JACM", year := 2023,
    doi := some "10.1/abc", abstract := "a", keywords := "k",
    pdfUrl := none, userId := 7, citations := some 3,
    researchArea := some "CS" }

/-- A publication with no research area and no DOI. -/
def pubNoArea : Publication :=
  { id := 2, title := "Old Results", type := "conference",
    authors := "B. Babbage", venue := "STOC", year := 2021,
    doi := none, abstract := "b", keywords := "k2",
    pdfUrl := none, userId := 7, citations := none,
    researchArea := none }

/-! ### The claims -/

/-- C2: the GroupKey of a publication is its year as a decimal string for
filter `"year"`, its type verbatim for `"type"`, its research area — or
the literal `"Uncategorized"` when the research area is absent (null, or
the empty string the client form submits for an unfilled field) — for
`"area"`, and the literal `"All Publications"` for any other filter
string. -/
theorem groupKey_spec (pub : Publication) (filter : String) :
    (groupKey "year" pub = jsIntToString pub.year)
    ∧ (groupKey "type" pub = pub.type)
    ∧ (∀ s, pub.researchArea = some s → s ≠ "" → groupKey "area" pub = s)
    ∧ ((pub.researchArea = none ∨ pub.researchArea = some "") →
        groupKey "area" pub = "Uncategorized")
    ∧ (filter ∉ (["year", "type", "area"] : List String) →
        groupKey filter pub = "All Publications") := by
  refine ⟨by simp [groupKey], by simp [groupKey], ?_, ?_, ?_⟩
  · intro s hs hne
    simp [groupKey, jsOrElse, hs, String.isEmpty_iff, hne]
  · rintro (hs | hs) <;> simp [groupKey, jsOrElse, hs, String.isEmpty_iff]
  · intro hf
    simp only [List.mem_cons, List.mem_singleton, not_or] at hf
    obtain ⟨h1, h2, h3, -⟩ := hf
    simp [groupKey, h1, h2, h3]

/-- Witness for C2 on concrete rows: a set research area is the key, a
null research area falls back to `"Uncategorized"`, an unrecognized
filter yields `"All Publications"`. -/
theorem groupKey_spec_witness :
    groupKey "area" pubCS = "CS"
    ∧ groupKey "area" pubNoArea = "Uncategorized"
    ∧ groupKey "author" pubCS = "All Publications" :=
  ⟨(groupKey_spec pubCS "author").2.2.1 "CS" rfl (by decide),
   (groupKey_spec pubNoArea "author").2.2.2.1 (Or.inl rfl),
   (groupKey_spec pubCS "author").2.2.2.2 (by decide)⟩

/-- C3: the groups come out sorted — for filter `"year"` in numerically
descending key order (equivalently, any publication of an earlier group
has a strictly larger year than any publication of a later group: most
recent first); for every other filter in (strictly) ascending
lexicographic key order. -/
theorem groupPublications_sorted_spec (pubs : List Publication) (filter : String) :
    (filter = "year" →
      (groupPublications pubs filter).Pairwise
        (fun g h => jsParseIntD h.1 ≤ jsParseIntD g.1
          ∧ ∀ p ∈ g.2, ∀ q ∈ h.2, q.year < p.year))
    ∧ (filter ≠ "year" →
      ((groupPublications pubs filter).map Prod.fst).Pairwise (· < ·)) := by
  constructor
  · intro hf
    subst hf
    exact year_groups_strict_desc pubs
  · intro hf
    exact other_groups_asc pubs filter hf

/-- Witness for C3 at a concrete two-element library, for the `"year"`
and the `"type"` orderings. -/
theorem groupPublications_sorted_spec_witness :
    ((groupPublications [pubCS, pubNoArea] "year").Pairwise
      (fun g h => jsParseIntD h.1 ≤ jsParseIntD g.1
        ∧ ∀ p ∈ g.2, ∀ q ∈ h.2, q.year < p.year))
    ∧ ((groupPublications [pubCS, pubNoArea] "type").map Prod.fst).Pairwise (· < ·) :=
  ⟨(groupPublications_sorted_spec [pubCS, pubNoArea] "year").1 rfl,
   (groupPublications_sorted_spec [pubCS, pubNoArea] "type").2 (by decide)⟩

/-- C4: the Grouper is an order-preserving partition — every bucket holds
exactly the input publications bearing its key, in input order
(`List.filter` keeps the original relative order); bucket keys are
pairwise distinct, so a publication lands in exactly one bucket; and the
concatenation of all buckets is a permutation of the input, so every
input publication appears exactly once. -/
theorem groupPublications_partition (pubs : List Publication) (filter : String) :
    (∀ g ∈ groupPublications pubs filter,
        g.2 = pubs.filter fun q => groupKey filter q = g.1)
    ∧ ((groupPublications pubs filter).map Prod.fst).Nodup
    ∧ List.Perm ((groupPublications pubs filter).map Prod.snd).flatten pubs :=
  ⟨fun _ hg => groupPublications_bucket hg,
   groupPublications_keys_nodup pubs filter,
   groupPublications_flatten_perm pubs filter⟩

/-- Witness for C4: the one-element library gives a single bucket whose
contents are the filtered input. -/
theorem groupPublications_partition_witness :
    (groupKey "year" pubCS, [pubCS]).2
        = [pubCS].filter (fun q => groupKey "year" q = (groupKey "year" pubCS, [pubCS]).1)
    ∧ ((groupPublications [pubCS] "year").map Prod.fst).Nodup
    ∧ List.Perm ((groupPublications [pubCS] "year").map Prod.snd).flatten [pubCS] := by
  have hmem : (groupKey "year" pubCS, [pubCS]) ∈ groupPublications [pubCS] "year" := by
    simp [groupPublications, buildGroups, insertGrouped, List.mergeSort_singleton]
  exact ⟨(groupPublications_partition [pubCS] "year").1 _ hmem,
    (groupPublications_partition [pubCS] "year").2.1,
    (groupPublications_partition [pubCS] "year").2.2⟩

/-- C1: the Dispatcher fails, with the `Unsupported format` error, exactly
when the lower-cased format string is none of `"pdf"`, `"word"`, `"web"`;
and a failing run returns no `Summary` artifact (the result is the error
alone). -/
theorem generatePublicationSummary_unsupported (pubs : List Publication)
    (format filter : String) :
    ((∃ e, generatePublicationSummary pubs format filter = Except.error e)
      ↔ ¬(jsToLowerCase format = "pdf" ∨ jsToLowerCase format = "word"
          ∨ jsToLowerCase format = "web"))
    ∧ (∀ e, generatePublicationSummary pubs format filter = Except.error e →
        e = "Unsupported format: " ++ format
        ∧ ∀ s, generatePublicationSummary pubs format filter ≠ Except.ok s) := by
  unfold generatePublicationSummary
  by_cases h1 : jsToLowerCase format = "pdf"
  · simp [h1]
  · by_cases h2 : jsToLowerCase format = "word"
    · simp [h1, h2]
    · by_cases h3 : jsToLowerCase format = "web"
      · simp [h1, h2, h3]
      · simp [h1, h2, h3]

/-- Witness for C1: format `"xml"` fails and yields no artifact. -/
theorem generatePublicationSummary_unsupported_witness :
    (∃ e, generatePublicationSummary [] "xml" "year" = Except.error e)
    ∧ ∀ s, generatePublicationSummary [] "xml" "year" ≠ Except.ok s := by
  have hiff := (generatePublicationSummary_unsupported [] "xml" "year").1
  have hfail := hiff.mpr (by decide)
  obtain ⟨e, he⟩ := hfail
  exact ⟨⟨e, he⟩, ((generatePublicationSummary_unsupported [] "xml" "year").2 e he).2⟩

/-- C6: dispatching any format that lower-cases to `"pdf"` returns
content-type `application/pdf` and extension `pdf`, with content equal to
the plain-text formatter output — which is exactly the content of the
`"word"` branch (content-type
`application/vnd.openxmlformats-officedocument.wordprocessingml.document`,
extension `docx`) on the same grouped input. -/
theorem pdf_word_equivalence (pubs : List Publication) (filter format : String)
    (hf : jsToLowerCase format = "pdf") :
    generatePublicationSummary pubs format filter
      = Except.ok { content := formatSummaryText (groupPublications pubs filter),
                    contentType := "application/pdf", extension := "pdf" }
    ∧ ∀ grouped : List (String × List Publication),
        (generatePDFSummary grouped).content = (generateWordSummary grouped).content
        ∧ (generatePDFSummary grouped).contentType = "application/pdf"
        ∧ (generatePDFSummary grouped).extension = "pdf"
        ∧ (generateWordSummary grouped).contentType
            = "application/vnd.openxmlformats-officedocument.wordprocessingml.document"
        ∧ (generateWordSummary grouped).extension = "docx" := by
  constructor
  · simp [generatePublicationSummary, hf, generatePDFSummary]
  · intro grouped
    exact ⟨rfl, rfl, rfl, rfl, rfl⟩

/-- Witness for C6 at the upper-case format string `"PDF"`. -/
theorem pdf_word_equivalence_witness :
    generatePublicationSummary [pubCS] "PDF" "year"
      = Except.ok { content := formatSummaryText (groupPublications [pubCS] "year"),
                    contentType := "application/pdf", extension := "pdf" }
    ∧ (generatePDFSummary [("2023", [pubCS])]).content
        = (generateWordSummary [("2023", [pubCS])]).content :=
  ⟨(pdf_word_equivalence [pubCS] "year" "PDF" (by decide)).1,
   ((pdf_word_equivalence [pubCS] "year" "PDF" (by decide)).2 [("2023", [pubCS])]).1⟩

/-- C9: the pipeline is deterministic — two invocations on the same
publication list, format and filter agree on everything, in particular on
the artifact\'s content bytes, content-type and extension.  (This is
grounded in the embedding being a pure function of exactly these inputs:
the source pipeline reads no clock, randomness or external state.) -/
theorem pipeline_deterministic (pubs : List Publication) (format filter : String)
    (r1 r2 : Except String Summary)
    (h1 : r1 = generatePublicationSummary pubs format filter)
    (h2 : r2 = generatePublicationSummary pubs format filter) :
    r1 = r2
    ∧ ∀ s1 s2, r1 = Except.ok s1 → r2 = Except.ok s2 →
        s1.content = s2.content
        ∧ s1.contentType = s2.contentType
        ∧ s1.extension = s2.extension := by
  subst h1 h2
  refine ⟨rfl, ?_⟩
  intro s1 s2 e1 e2
  rw [e1] at e2
  cases e2
  exact ⟨rfl, rfl, rfl⟩

/-- Witness for C9: two runs on a concrete input coincide. -/
theorem pipeline_deterministic_witness :
    generatePublicationSummary [pubCS] "web" "year"
        = generatePublicationSummary [pubCS] "web" "year"
    ∧ ∀ s1 s2, generatePublicationSummary [pubCS] "web" "year" = Except.ok s1 →
        generatePublicationSummary [pubCS] "web" "year" = Except.ok s2 →
        s1.content = s2.content
        ∧ s1.contentType = s2.contentType
        ∧ s1.extension = s2.extension :=
  pipeline_deterministic [pubCS] "web" "year" _ _ rfl rfl

/-! ### The plain-text formatter, line by line (for C5) -/

theorem strJoin_append (l1 l2 : List String) :
    strJoin (l1 ++ l2) = strJoin l1 ++ strJoin l2 := by
  induction l1 with
  | nil => simp [strJoin]
  | cons s rest ih => simp [strJoin, ih, String.append_assoc]

/-- Rendering of a list of lines: each line followed by a newline. -/
def renderLines (ls : List String) : String :=
  strJoin (ls.map fun l => l ++ "\n")

theorem renderLines_append (l1 l2 : List String) :
    renderLines (l1 ++ l2) = renderLines l1 ++ renderLines l2 := by
  simp [renderLines, List.map_append, strJoin_append]

/-- The lines of one publication entry as the spec words them: title
line, `Authors:` line, `venue, year` line, a `DOI:` line only when a DOI
is present, then the separating blank line. -/
def specPubLines (pub : Publication) : List String :=
  [pub.title, "Authors: " ++ pub.authors,
      pub.venue ++ ", " ++ jsIntToString pub.year]
    ++ (if jsTruthy pub.doi then ["DOI: " ++ pub.doi.getD ""] else [])
    ++ [""]

/-- The lines of the whole summary as the spec words them: the
`Publications Summary` title line, a blank line, then per group the key
header line, the dash underline, a blank line and the entry lines. -/
def specSummaryLines (grouped : List (String × List Publication)) : List String :=
  "Publications Summary" :: "" ::
    grouped.flatMap fun g =>
      g.1 :: dashes g.1.length :: "" :: g.2.flatMap specPubLines

theorem renderLines_cons (x : String) (xs : List String) :
    renderLines (x :: xs) = x ++ "\n" ++ renderLines xs := by
  simp only [renderLines, List.map_cons, strJoin, String.append_assoc]

theorem formatPubText_renderLines (p : Publication) :
    formatPubText p = renderLines (specPubLines p) := by
  cases hd : jsTruthy p.doi <;>
    simp only [formatPubText, specPubLines, hd, Bool.false_eq_true, if_false,
      if_true, List.cons_append, List.nil_append, renderLines_cons,
      renderLines, List.map_nil, strJoin, String.append_assoc,
      String.append_empty, String.empty_append]

theorem strJoin_map_formatPubText (l : List Publication) :
    strJoin (l.map formatPubText) = renderLines (l.flatMap specPubLines) := by
  induction l with
  | nil => rfl
  | cons p rest ih =>
    simp only [List.map_cons, List.flatMap_cons, strJoin]
    rw [renderLines_append, ← ih, ← formatPubText_renderLines]

theorem formatGroupText_renderLines (g : String × List Publication) :
    formatGroupText g
      = renderLines (g.1 :: dashes g.1.length :: "" :: g.2.flatMap specPubLines) := by
  show formatGroupText g
    = renderLines ([g.1, dashes g.1.length, ""] ++ g.2.flatMap specPubLines)
  rw [renderLines_append, ← strJoin_map_formatPubText, renderLines_cons,
    renderLines_cons, renderLines_cons]
  simp only [formatGroupText, renderLines, List.map_nil, strJoin,
    String.append_assoc, String.append_empty, String.empty_append]

theorem strJoin_map_formatGroupText (l : List (String × List Publication)) :
    strJoin (l.map formatGroupText)
      = renderLines (l.flatMap fun g =>
          g.1 :: dashes g.1.length :: "" :: g.2.flatMap specPubLines) := by
  induction l with
  | nil => rfl
  | cons g rest ih =>
    simp only [List.map_cons, List.flatMap_cons, strJoin]
    rw [renderLines_append, ← ih, ← formatGroupText_renderLines]

/-- C5: the plain-text formatter output is exactly the line sequence the
spec describes — `Publications Summary` title line, blank line, then per
group in iteration order the key as header line, an underline of dashes
as long as the key, a blank line, and per publication the title line, the
`Authors: ...` line, the `venue, year` line, a `DOI: ...` line only when
a DOI is present, and a blank line separating entries (each line
terminated by a newline); the underline consists of dash characters and
its length equals the key\'s length. -/
theorem formatSummaryText_spec (grouped : List (String × List Publication)) :
    formatSummaryText grouped = renderLines (specSummaryLines grouped)
    ∧ ∀ k : String, (dashes k.length).length = k.length
        ∧ ∀ c ∈ (dashes k.length).data, c = '-' := by
  refine ⟨?_, ?_⟩
  · unfold formatSummaryText specSummaryLines
    rw [strJoin_map_formatGroupText, renderLines_cons, renderLines_cons]
    simp only [String.append_assoc, String.empty_append]
  · intro k
    have hlen : (dashes k.length).length = (List.replicate k.length '-').length := rfl
    refine ⟨by rw [hlen, List.length_replicate], ?_⟩
    intro c hc
    exact List.eq_of_mem_replicate hc

/-- Witness for C5 (the second conjunct quantifies over `k`): at a
concrete group key. -/
theorem formatSummaryText_spec_witness :
    formatSummaryText [] = renderLines (specSummaryLines [])
    ∧ (dashes ("2023" : String).length).length = ("2023" : String).length :=
  ⟨(formatSummaryText_spec []).1, ((formatSummaryText_spec []).2 "2023").1⟩

/-! ### Verbatim containment in the rendered outputs (for C7 and C10) -/

/-- `t` occurs verbatim (character for character) in `s`. -/
def StrContains (s t : String) : Prop :=
  ∃ pre post, s = pre ++ t ++ post

theorem StrContains.appL {s t : String} (h : StrContains s t) (x : String) :
    StrContains (x ++ s) t := by
  obtain ⟨a, b, rfl⟩ := h
  exact ⟨x ++ a, b, by simp only [String.append_assoc]⟩

theorem StrContains.appR {s t : String} (h : StrContains s t) (x : String) :
    StrContains (s ++ x) t := by
  obtain ⟨a, b, rfl⟩ := h
  exact ⟨a, b ++ x, by simp only [String.append_assoc]⟩

theorem strJoin_strContains {α : Type} (f : α → String) {x : α} {l : List α}
    (hx : x ∈ l) {t : String} (h : StrContains (f x) t) :
    StrContains (strJoin (l.map f)) t := by
  obtain ⟨u, v, rfl⟩ := List.append_of_mem hx
  rw [List.map_append, strJoin_append, List.map_cons]
  show StrContains (strJoin (u.map f) ++ (f x ++ strJoin (v.map f))) t
  exact (h.appR _).appL _

theorem generateHTML_contains_of_group
    {grouped : List (String × List Publication)} {g : String × List Publication}
    {t : String} (hg : g ∈ grouped) (h : StrContains (groupHTML g) t) :
    StrContains (generateHTML grouped) t := by
  have h2 := strJoin_strContains groupHTML hg h
  show StrContains ((htmlHeader ++ strJoin (grouped.map groupHTML)) ++ htmlFooter) t
  exact (h2.appL htmlHeader).appR htmlFooter

theorem generateHTML_contains_of_entry
    {grouped : List (String × List Publication)} {g : String × List Publication}
    {p : Publication} {t : String} (hg : g ∈ grouped) (hp : p ∈ g.2)
    (h : StrContains (entryHTML p) t) :
    StrContains (generateHTML grouped) t := by
  refine generateHTML_contains_of_group hg ?_
  show StrContains (("<h2>" ++ g.1 ++ "</h2>") ++ strJoin (g.2.map entryHTML)) t
  exact (strJoin_strContains entryHTML hp h).appL _

/-- C7: an entry with no DOI (null, or the empty string the client form
submits for an unfilled field) renders with no `DOI:` line in the plain
text and no DOI link in the HTML — both rendered blocks are exactly the
DOI-less templates; an entry with a DOI `d` renders a `DOI: d` line in
the plain text, and in the full HTML document a hyperlink whose `href`
target is exactly `https://doi.org/d`. -/
theorem doi_rendering (p : Publication) :
    ((p.doi = none ∨ p.doi = some "") →
      formatPubText p
          = p.title ++ "\n" ++ "Authors: " ++ p.authors ++ "\n" ++ p.venue
              ++ ", " ++ jsIntToString p.year ++ "\n" ++ "\n"
        ∧ entryHTML p
          = "\n        <div class=\"publication\">\n          <div class=\"title\">"
              ++ p.title
              ++ "</div>\n          <div class=\"metadata\">\n            "
              ++ p.authors
              ++ "<br>\n            "
              ++ p.venue ++ ", " ++ jsIntToString p.year
              ++ "\n            "
              ++ "\n          </div>\n        </div>\n      ")
    ∧ ∀ d, p.doi = some d → d ≠ "" →
        StrContains (formatPubText p) ("DOI: " ++ d ++ "\n")
        ∧ ∀ grouped g, g ∈ grouped → p ∈ g.2 →
            StrContains (generateHTML grouped)
              ("<a href=\"https://doi.org/" ++ d ++ "\"") := by
  constructor
  · intro hd
    have ht : jsTruthy p.doi = false := by
      rcases hd with hd | hd <;> rw [hd] <;> decide
    constructor
    · simp only [formatPubText, ht, Bool.false_eq_true, if_false,
        String.append_assoc, String.empty_append, String.append_empty]
    · simp only [entryHTML, ht, Bool.false_eq_true, if_false,
        String.append_assoc, String.empty_append, String.append_empty]
  · intro d hd hne
    have hie : d.isEmpty = false := by
      rw [Bool.eq_false_iff]
      intro h
      exact hne ((String.isEmpty_iff d).1 h)
    have htd : jsTruthy (some d) = true := by
      show (!d.isEmpty) = true
      rw [hie]
      rfl
    constructor
    · refine ⟨p.title ++ "\n" ++ "Authors: " ++ p.authors ++ "\n" ++ p.venue
        ++ ", " ++ jsIntToString p.year ++ "\n", "\n", ?_⟩
      simp only [formatPubText, hd, htd, if_true, reduceIte, Option.getD_some,
        String.append_assoc]
    · intro grouped g hg hp
      refine generateHTML_contains_of_entry hg hp ?_
      refine ⟨"\n        <div class=\"publication\">\n          <div class=\"title\">"
          ++ p.title
          ++ "</div>\n          <div class=\"metadata\">\n            "
          ++ p.authors
          ++ "<br>\n            "
          ++ p.venue ++ ", " ++ jsIntToString p.year
          ++ "\n            "
          ++ "<br>",
        " class=\"doi\">DOI: " ++ d ++ "</a>"
          ++ "\n          </div>\n        </div>\n      ", ?_⟩
      simp only [entryHTML, doiAnchorHTML, hd, htd, if_true, reduceIte,
        Option.getD_some, String.append_assoc]

/-- Witness for C7: the DOI-less row renders without a DOI line, the row
with DOI `10.1/abc` renders the DOI line and the exact `doi.org`
hyperlink in the document. -/
theorem doi_rendering_witness :
    (formatPubText pubNoArea
        = pubNoArea.title ++ "\n" ++ "Authors: " ++ pubNoArea.authors ++ "\n"
            ++ pubNoArea.venue ++ ", " ++ jsIntToString pubNoArea.year ++ "\n" ++ "\n"
      ∧ entryHTML pubNoArea
        = "\n        <div class=\"publication\">\n          <div class=\"title\">"
            ++ pubNoArea.title
            ++ "</div>\n          <div class=\"metadata\">\n            "
            ++ pubNoArea.authors
            ++ "<br>\n            "
            ++ pubNoArea.venue ++ ", " ++ jsIntToString pubNoArea.year
            ++ "\n            "
            ++ "\n          </div>\n        </div>\n      ")
    ∧ StrContains (formatPubText pubCS) ("DOI: " ++ "10.1/abc" ++ "\n")
    ∧ StrContains (generateHTML [("2023", [pubCS])])
        ("<a href=\"https://doi.org/" ++ "10.1/abc" ++ "\"") :=
  ⟨(doi_rendering pubNoArea).1 (Or.inl rfl),
   ((doi_rendering pubCS).2 "10.1/abc" rfl (by decide)).1,
   ((doi_rendering pubCS).2 "10.1/abc" rfl (by decide)).2
     [("2023", [pubCS])] ("2023", [pubCS]) (by simp) (by simp)⟩

/-- C10: the HTML renderer interpolates the group key and the
publication's title, authors, venue, year and DOI into the document
verbatim, with no HTML escaping — each of those field strings occurs
character for character in the output, so any markup contained in a field
becomes part of the document's markup. -/
theorem html_no_escaping (grouped : List (String × List Publication))
    (g : String × List Publication) (p : Publication)
    (hg : g ∈ grouped) (hp : p ∈ g.2) :
    StrContains (generateHTML grouped) ("<h2>" ++ g.1 ++ "</h2>")
    ∧ StrContains (generateHTML grouped) p.title
    ∧ StrContains (generateHTML grouped) p.authors
    ∧ StrContains (generateHTML grouped) (p.venue ++ ", " ++ jsIntToString p.year)
    ∧ ∀ d, p.doi = some d → d ≠ "" → StrContains (generateHTML grouped) d := by
  refine ⟨?_, ?_, ?_, ?_, ?_⟩
  · refine generateHTML_contains_of_group hg ?_
    exact ⟨"", strJoin (g.2.map entryHTML),
      by simp only [groupHTML, String.append_assoc, String.empty_append]⟩
  · refine generateHTML_contains_of_entry hg hp ?_
    exact ⟨"\n        <div class=\"publication\">\n          <div class=\"title\">",
      "</div>\n          <div class=\"metadata\">\n            "
        ++ p.authors
        ++ "<br>\n            "
        ++ p.venue ++ ", " ++ jsIntToString p.year
        ++ "\n            "
        ++ (if jsTruthy p.doi then doiAnchorHTML (p.doi.getD "") else "")
        ++ "\n          </div>\n        </div>\n      ",
      by simp only [entryHTML, String.append_assoc]⟩
  · refine generateHTML_contains_of_entry hg hp ?_
    exact ⟨"\n        <div class=\"publication\">\n          <div class=\"title\">"
        ++ p.title
        ++ "</div>\n          <div class=\"metadata\">\n            ",
      "<br>\n            "
        ++ p.venue ++ ", " ++ jsIntToString p.year
        ++ "\n            "
        ++ (if jsTruthy p.doi then doiAnchorHTML (p.doi.getD "") else "")
        ++ "\n          </div>\n        </div>\n      ",
      by simp only [entryHTML, String.append_assoc]⟩
  · refine generateHTML_contains_of_entry hg hp ?_
    exact ⟨"\n        <div class=\"publication\">\n          <div class=\"title\">"
        ++ p.title
        ++ "</div>\n          <div class=\"metadata\">\n            "
        ++ p.authors
        ++ "<br>\n            ",
      "\n            "
        ++ (if jsTruthy p.doi then doiAnchorHTML (p.doi.getD "") else "")
        ++ "\n          </div>\n        </div>\n      ",
      by simp only [entryHTML, String.append_assoc]⟩
  · intro d hd hne
    have hie : d.isEmpty = false := by
      rw [Bool.eq_false_iff]
      intro h
      exact hne ((String.isEmpty_iff d).1 h)
    have htd : jsTruthy (some d) = true := by
      show (!d.isEmpty) = true
      rw [hie]
      rfl
    refine generateHTML_contains_of_entry hg hp ?_
    exact ⟨"\n        <div class=\"publication\">\n          <div class=\"title\">"
        ++ p.title
        ++ "</div>\n          <div class=\"metadata\">\n            "
        ++ p.authors
        ++ "<br>\n            "
        ++ p.venue ++ ", " ++ jsIntToString p.year
        ++ "\n            "
        ++ "<br>" ++ "<a href=\"https://doi.org/",
      "\"" ++ " class=\"doi\">DOI: " ++ d ++ "</a>"
        ++ "\n          </div>\n        </div>\n      ",
      by simp only [entryHTML, doiAnchorHTML, hd, htd, reduceIte,
        Option.getD_some, String.append_assoc]⟩

/-- A publication whose fields carry HTML markup, for the C10 witness. -/
def pubXSS : Publication :=
  { id := 3, title := "<script>alert(1)</script>", type := "misc",
    authors := "A <b>Bold</b>", venue := "V&V", year := 1999,
    doi := some "10.9/<q>", abstract := "x", keywords := "y",
    pdfUrl := none, userId := 1, citations := none,
    researchArea := some "<i>AI</i>" }

/-- Witness for C10: markup-bearing fields of a concrete row appear
verbatim in the rendered document. -/
theorem html_no_escaping_witness :
    StrContains (generateHTML [("G", [pubXSS])]) ("<h2>" ++ "G" ++ "</h2>")
    ∧ StrContains (generateHTML [("G", [pubXSS])]) pubXSS.title
    ∧ StrContains (generateHTML [("G", [pubXSS])]) pubXSS.authors
    ∧ StrContains (generateHTML [("G", [pubXSS])])
        (pubXSS.venue ++ ", " ++ jsIntToString pubXSS.year)
    ∧ StrContains (generateHTML [("G", [pubXSS])]) "10.9/<q>" := by
  have h := html_no_escaping [("G", [pubXSS])] ("G", [pubXSS]) pubXSS
    (by simp) (by simp)
  exact ⟨h.1, h.2.1, h.2.2.1, h.2.2.2.1, h.2.2.2.2 "10.9/<q>" rfl (by decide)⟩

/-- C8 (code divergence): on an authenticated request with an unsupported
format the route does not produce any HTTP response, let alone a
400-class rejection — `server/routes.ts` lines 268–284 contain no
`try`/`catch`, so the thrown `Unsupported format` error escapes the async
handler (modelled: the endpoint evaluates to `Except.error`, and to no
`HttpResponse` whatsoever).  The spec requires a 400-class rejection at
this boundary. -/
theorem summaryEndpoint_unsupported_uncaught :
    summaryEndpoint true [] "xml" "year"
        = Except.error ("Unsupported format: " ++ "xml")
    ∧ ∀ r : HttpResponse, summaryEndpoint true [] "xml" "year" ≠ Except.ok r := by
  have hgen : generatePublicationSummary [] "xml" "year"
      = Except.error ("Unsupported format: " ++ "xml") := by
    unfold generatePublicationSummary
    have h1 : jsToLowerCase "xml" = "xml" := by decide
    rw [h1]
    simp
  constructor
  · unfold summaryEndpoint
    rw [hgen]
    rfl
  · intro r
    unfold summaryEndpoint
    rw [hgen]
    intro h
    simp at h

end FacultyPub
